import Mathlib

/-!
Verification of the matcha-monitor specification against the repository.

The repository ships only the CLI glue (`src/matcha_monitor/cli.py`); the
runner core modules it imports (`matcha_monitor.core.runner`, `.config`,
`.state`) are not present under `src/`.  Those components are therefore
modelled from the specification (each such definition says so in its doc
comment), while the CLI control flow is embedded directly from `cli.py`.

Timestamps are modelled as natural numbers; extracted values as a scalar
type (string, integer, boolean or null), matching the spec's data model.
-/

/-- Scalar values: the output type of the Extractor and the type of
`last_value` in an Observation (string, number, boolean, or null). -/
inductive Scalar where
  | str (s : String)
  | num (n : Int)
  | bool (b : Bool)
  | null
  deriving Repr, DecidableEq

/-- Modelled from the spec: an Observation per target in persisted state,
`{last_value, in_stock, last_changed_at, last_alerted_at}` (spec section 3). -/
structure Observation where
  last_value : Option Scalar
  in_stock : Bool
  last_changed_at : Option Nat
  last_alerted_at : Option Nat
  deriving Repr, DecidableEq

/-- Modelled from the spec: a transient CheckResult
`{value, in_stock, would_alert}` produced by one Target Evaluation. -/
structure CheckResult where
  value : Scalar
  in_stock : Bool
  would_alert : Bool
  deriving Repr, DecidableEq

/-- Persisted state: a mapping from target name to Observation, modelled as
an association list. -/
abbrev StateMap := List (String × Observation)

/-- Look up the Observation recorded for a target name, if any. -/
def lookupObs (st : StateMap) (n : String) : Option Observation :=
  match st with
  | [] => none
  | p :: rest => if p.1 = n then some p.2 else lookupObs rest n

/-- Record an Observation for a target name, replacing any previous entry. -/
def setObs (st : StateMap) (n : String) (o : Observation) : StateMap :=
  match st with
  | [] => [(n, o)]
  | p :: rest => if p.1 = n then (n, o) :: rest else p :: setObs rest n o

/-- Modelled from the spec: the State Tracker transition rule (spec 4.5).
Alert-worthy iff a previous observation exists, its `in_stock` is false,
and the new `in_stock` verdict is true. -/
def wouldAlert (prev : Option Observation) (newInStock : Bool) : Bool :=
  match prev with
  | none => false
  | some o => !o.in_stock && newInStock

/-- Modelled from the spec: whether a newly extracted value counts as
changed relative to the previous observation (spec 4.5: changed when the
value differs from `previous_observation.last_value`, or when there is no
previous observation). -/
def valueChanged (prev : Option Observation) (v : Scalar) : Bool :=
  match prev with
  | none => true
  | some o => !(o.last_value = some v)

/-- Modelled from the spec: committing a check result (spec 4.5).
`in_stock` and `last_value` are always updated; `last_changed_at` is set to
the current time exactly when the value changed, otherwise preserved;
`last_alerted_at` is set to the current time only when an alert was
actually dispatched successfully, otherwise preserved. -/
def commitCheck (prev : Option Observation) (v : Scalar) (s : Bool)
    (now : Nat) (dispatched : Bool) : Observation :=
  { last_value := some v
    in_stock := s
    last_changed_at :=
      if valueChanged prev v then some now
      else (prev.map Observation.last_changed_at).join
    last_alerted_at :=
      if dispatched then some now
      else (prev.map Observation.last_alerted_at).join }

/-- Modelled from the spec: outcome of committing one check together with
the alert-dispatch decision (spec 4.5, 4.6).  When the transition is
alert-worthy and the run is not a dry run, the Alert Sink is invoked; the
commit records `dispatched = true` only when the sink succeeded, and a sink
failure is surfaced to the caller via `alertFailed`. -/
structure CommitOutcome where
  obs : Observation
  sinkInvoked : Bool
  alertFailed : Bool
  deriving Repr, DecidableEq

/-- Modelled from the spec: evaluate the transition rule, optionally invoke
the Alert Sink, and commit (spec 4.5, 4.6). -/
def commitWithAlert (prev : Option Observation) (v : Scalar) (s : Bool)
    (now : Nat) (dryRun : Bool) (sinkOk : Bool) : CommitOutcome :=
  let wa := wouldAlert prev s
  let invoke := wa && !dryRun
  let dispatched := invoke && sinkOk
  { obs := commitCheck prev v s now dispatched
    sinkInvoked := invoke
    alertFailed := invoke && !sinkOk }

/-- C1: the transition rule marks a check alert-worthy iff a previous
observation exists with `in_stock = false` and the new verdict is true;
a first check with `in_stock = true` and no prior observation does not
alert, a second consecutive true check does not alert, and a false-then-
true sequence does alert. -/
theorem transition_rule_characterisation :
    (∀ (prev : Option Observation) (s : Bool),
      wouldAlert prev s = true ↔
        ∃ o, prev = some o ∧ o.in_stock = false ∧ s = true) ∧
    (wouldAlert none true = false) ∧
    (∀ (v : Scalar) (now : Nat) (d : Bool),
      wouldAlert (some (commitCheck none v true now d)) true = false) ∧
    (∀ (prev : Option Observation) (v : Scalar) (now : Nat) (d : Bool),
      wouldAlert (some (commitCheck prev v false now d)) true = true) := by
  refine ⟨?_, rfl, ?_, ?_⟩
  · intro prev s
    cases prev with
    | none =>
      simp [wouldAlert]
    | some o =>
      cases ho : o.in_stock <;> cases s <;>
        simp [wouldAlert, ho]
  · intro v now d
    simp [wouldAlert, commitCheck]
  · intro prev v now d
    simp [wouldAlert, commitCheck]

/-- C5: `last_changed_at` is set to the current time exactly when the new
value differs from the previous `last_value` (or there is no previous
observation) and is preserved otherwise; committing the same check result
twice in a row leaves `last_changed_at` unchanged on the second commit. -/
theorem last_changed_at_rule :
    (∀ (v : Scalar) (s : Bool) (now : Nat) (d : Bool),
      (commitCheck none v s now d).last_changed_at = some now) ∧
    (∀ (o : Observation) (v : Scalar) (s : Bool) (now : Nat) (d : Bool),
      (commitCheck (some o) v s now d).last_changed_at =
        if o.last_value = some v then o.last_changed_at else some now) ∧
    (∀ (prev : Option Observation) (v : Scalar) (s : Bool)
        (now1 now2 : Nat) (d1 : Bool),
      (commitCheck (some (commitCheck prev v s now1 d1)) v s now2
          false).last_changed_at =
        (commitCheck prev v s now1 d1).last_changed_at) := by
  refine ⟨?_, ?_, ?_⟩
  · intro v s now d
    simp [commitCheck, valueChanged]
  · intro o v s now d
    by_cases h : o.last_value = some v <;>
      simp [commitCheck, valueChanged, h]
  · intro prev v s now1 now2 d1
    simp [commitCheck, valueChanged]

/-- C2: when the Alert Sink fails on an alert-worthy transition, the commit
still records the new `in_stock`, `last_value` and `last_changed_at`,
leaves `last_alerted_at` unchanged, surfaces the failure to the caller, and
on the next pass with `in_stock` still true the alert is not re-attempted. -/
theorem alert_failure_commit (o : Observation) (v : Scalar) (now : Nat)
    (hstock : o.in_stock = false) :
    ((commitWithAlert (some o) v true now false false).obs.in_stock = true) ∧
    ((commitWithAlert (some o) v true now false false).obs.last_value
        = some v) ∧
    ((commitWithAlert (some o) v true now false false).obs.last_changed_at =
        if o.last_value = some v then o.last_changed_at else some now) ∧
    ((commitWithAlert (some o) v true now false false).obs.last_alerted_at
        = o.last_alerted_at) ∧
    ((commitWithAlert (some o) v true now false false).alertFailed = true) ∧
    (∀ (s2 : Bool),
      wouldAlert (some (commitWithAlert (some o) v true now false
        false).obs) s2 = false) ∧
    (∀ (v2 : Scalar) (now2 : Nat) (sink2 : Bool),
      (commitWithAlert (some (commitWithAlert (some o) v true now false
        false).obs) v2 true now2 false sink2).sinkInvoked = false) := by
  refine ⟨?_, ?_, ?_, ?_, ?_, ?_, ?_⟩
  · simp [commitWithAlert, commitCheck]
  · simp [commitWithAlert, commitCheck]
  · by_cases h : o.last_value = some v <;>
      simp [commitWithAlert, commitCheck, valueChanged, h]
  · simp [commitWithAlert, commitCheck, wouldAlert, hstock]
  · simp [commitWithAlert, wouldAlert, hstock]
  · intro s2
    simp [commitWithAlert, commitCheck, wouldAlert]
  · intro v2 now2 sink2
    simp [commitWithAlert, commitCheck, wouldAlert]

/-- Observation of a target last seen out of stock, used as a concrete
instance in witnesses. -/
def obsSoldOut : Observation :=
  ⟨some (Scalar.str "sold out"), false, some 5, none⟩

/-- Witness for C2 at a concrete false-to-true transition. -/
theorem alert_failure_commit_witness :
    obsSoldOut.in_stock = false ∧
    (commitWithAlert (some obsSoldOut) (Scalar.str "in stock") true 9 false
        false).alertFailed = true := by
  refine ⟨rfl, ?_⟩
  exact (alert_failure_commit obsSoldOut (Scalar.str "in stock") 9
    rfl).2.2.2.2.1

/-- Modelled from the spec: truthiness coercion used by the Condition
Evaluator (spec 4.3): a value is truthy when it is present and not
false/empty/zero/null. -/
def scalarTruthy (v : Scalar) : Bool :=
  match v with
  | .str s => !(s = "")
  | .num n => !(n = 0)
  | .bool b => b
  | .null => false

/-- Modelled from the spec: stringification of a scalar for `text:`
comparison (spec 4.3). -/
def stringifyScalar (v : Scalar) : String :=
  match v with
  | .str s => s
  | .num n => toString n
  | .bool b => if b then "true" else "false"
  | .null => "null"

/-- Decide whether the second list of characters occurs at the start of
the first. -/
def charsStartWith : List Char → List Char → Bool
  | _, [] => true
  | [], _ :: _ => false
  | a :: as, b :: bs => a == b && charsStartWith as bs

/-- Decide whether the second list of characters occurs contiguously
anywhere in the first. -/
def charsContain : List Char → List Char → Bool
  | [], needle => needle.isEmpty
  | a :: as, needle => charsStartWith (a :: as) needle || charsContain as needle

/-- Lower-case a single character (ASCII range, as in the spec's
examples). -/
def lowerChar (c : Char) : Char :=
  if c.isUpper then Char.ofNat (c.toNat + 32) else c

/-- Case-insensitive substring containment on strings. -/
def strContainsCI (hay needle : String) : Bool :=
  charsContain (hay.toList.map lowerChar) (needle.toList.map lowerChar)

/-- The single-quote character delimiting `text:` literals. -/
def quoteChar : Char := Char.ofNat 39

/-- Modelled from the spec: the parsed form of an expect expression
(design note in spec section 9: a tagged variant). -/
inductive Expectation where
  | truthy
  | boolEq (b : Bool)
  | textContains (lit : String)
  deriving Repr, DecidableEq

/-- Modelled from the spec: condition-evaluation failure
`ConditionError{InvalidExpression}` (spec 4.3). -/
inductive CondError where
  | invalidExpression
  deriving Repr, DecidableEq

/-- Split a list of characters at the first colon, returning the parts
before and after it. -/
def splitAtColon : List Char → Option (List Char × List Char)
  | [] => none
  | c :: cs =>
    if c = ':' then some ([], cs)
    else
      match splitAtColon cs with
      | none => none
      | some p => some (c :: p.1, p.2)

/-- Strip a matching pair of single quotes from the ends of a character
list, failing when the list is not quote-delimited. -/
def stripQuotes (cs : List Char) : Option (List Char) :=
  match cs with
  | [] => none
  | q1 :: rest =>
    if q1 = quoteChar then
      match rest.reverse with
      | [] => none
      | q2 :: mid => if q2 = quoteChar then some mid.reverse else none
    else none

/-- Modelled from the spec: parse an expect expression `kind:payload`
(spec 4.3).  An empty string defaults to the truthiness check; `bool` takes
`true` or `false`; `text` takes a single-quoted literal; anything else is
an invalid expression. -/
def parseExpect (e : String) : Except CondError Expectation :=
  if e = "" then .ok .truthy
  else
    match splitAtColon e.toList with
    | none => .error .invalidExpression
    | some (kind, payload) =>
      if String.mk kind = "bool" then
        if String.mk payload = "true" then .ok (.boolEq true)
        else if String.mk payload = "false" then .ok (.boolEq false)
        else .error .invalidExpression
      else if String.mk kind = "text" then
        match stripQuotes payload with
        | some lit => .ok (.textContains (String.mk lit))
        | none => .error .invalidExpression
      else .error .invalidExpression

/-- Modelled from the spec: the Condition Evaluator (spec 4.3).  Produces
the boolean `in_stock` verdict from the extracted value and the expect
expression: `bool` compares the coerced value against the payload, `text`
checks case-insensitive containment of the literal in the stringified
value, and an empty expression checks truthiness. -/
def evalCondition (v : Scalar) (e : String) : Except CondError Bool :=
  match parseExpect e with
  | .error err => .error err
  | .ok .truthy => .ok (scalarTruthy v)
  | .ok (.boolEq b) => .ok (scalarTruthy v == b)
  | .ok (.textContains lit) => .ok (strContainsCI (stringifyScalar v) lit)

/-- The expect expression string for the spec example, with the quoted
literal add-to-cart. -/
def expectAddToCart : String :=
  String.mk (String.toList "text:" ++ [quoteChar]
    ++ String.toList "add to cart" ++ [quoteChar])

/-- C6: the Condition Evaluator coerces the value to boolean and compares
it to the payload for `bool:` expressions (so `bool:true` on the empty
string yields false), checks case-insensitive containment for `text:`
expressions (so the add-to-cart literal matches richer DOM text), and
defaults to truthiness on an empty expect string. -/
theorem condition_evaluator_semantics :
    (∀ v : Scalar, evalCondition v "bool:true" =
      Except.ok (scalarTruthy v == true)) ∧
    (∀ v : Scalar, evalCondition v "bool:false" =
      Except.ok (scalarTruthy v == false)) ∧
    (evalCondition (Scalar.str "") "bool:true" = Except.ok false) ∧
    (evalCondition (Scalar.str "Add to Cart Now") expectAddToCart =
      Except.ok true) ∧
    (∀ v : Scalar, evalCondition v "" = Except.ok (scalarTruthy v)) := by
  exact ⟨fun v => rfl, fun v => rfl, rfl, rfl, fun v => rfl⟩

/-- A decoded JSON document. -/
inductive Json where
  | str (s : String)
  | num (n : Int)
  | bool (b : Bool)
  | null
  | obj (fields : List (String × Json))
  | arr (elems : List Json)

/-- Modelled from the spec: extraction failure kinds for the `json` method
(spec 4.2): `PathNotFound` and `InvalidJSON`. -/
inductive ExtractErr where
  | pathNotFound
  | invalidDocument
  deriving Repr, DecidableEq

/-- Look up a field by key in a JSON object. -/
def lookupField : List (String × Json) → String → Option Json
  | [], _ => none
  | p :: rest, k => if p.1 = k then some p.2 else lookupField rest k

/-- Resolve a dot path, one component at a time, inside a JSON document. -/
def resolvePath : Json → List String → Option Json
  | j, [] => some j
  | Json.obj fields, k :: ks =>
    match lookupField fields k with
    | none => none
    | some child => resolvePath child ks
  | _, _ :: _ => none

/-- Split a character list at every dot. -/
def splitDots : List Char → List (List Char)
  | [] => [[]]
  | c :: cs =>
    if c = '.' then [] :: splitDots cs
    else
      match splitDots cs with
      | [] => [[c]]
      | p :: ps => (c :: p) :: ps

/-- Split a dot-notation extraction rule into its path components. -/
def splitPath (rule : String) : List String :=
  (splitDots rule.toList).map String.mk

/-- View a JSON node as a scalar leaf; objects and arrays are not leaves. -/
def scalarOfLeaf : Json → Option Scalar
  | .str s => some (.str s)
  | .num n => some (.num n)
  | .bool b => some (.bool b)
  | .null => some .null
  | .obj _ => none
  | .arr _ => none

/-- Modelled from the spec: the `json` Extractor (spec 4.2).  The rule is a
dot path into the decoded document; the result is the resolved scalar leaf
value, and a path resolving to nothing or to a non-leaf object or array is
a `PathNotFound` error, never a stringified representation. -/
def extractJson (doc : Json) (rule : String) : Except ExtractErr Scalar :=
  match resolvePath doc (splitPath rule) with
  | none => .error .pathNotFound
  | some leaf =>
    match scalarOfLeaf leaf with
    | some v => .ok v
    | none => .error .pathNotFound

/-- The spec's round-trip example document, with a scalar at path a.b. -/
def docInStock : Json :=
  Json.obj [("a", Json.obj [("b", Json.str "in stock")])]

/-- The spec's non-leaf example document, with an object at path a.b. -/
def docNonLeaf : Json :=
  Json.obj [("a", Json.obj [("b", Json.obj [("c", Json.num 1)])])]

/-- C7: a json extraction whose path resolves to a scalar leaf returns
that leaf value, and one whose path resolves to a non-leaf object or array
returns an extraction error rather than a stringified object; in
particular rule a.b returns the string at that path in the round-trip
example and fails on the non-leaf example. -/
theorem json_extraction_leaf_rule :
    (∀ (doc : Json) (rule : String) (fs : List (String × Json)),
      resolvePath doc (splitPath rule) = some (Json.obj fs) →
        extractJson doc rule = Except.error ExtractErr.pathNotFound) ∧
    (∀ (doc : Json) (rule : String) (es : List Json),
      resolvePath doc (splitPath rule) = some (Json.arr es) →
        extractJson doc rule = Except.error ExtractErr.pathNotFound) ∧
    (∀ (doc : Json) (rule : String) (leaf : Json) (v : Scalar),
      resolvePath doc (splitPath rule) = some leaf →
      scalarOfLeaf leaf = some v →
        extractJson doc rule = Except.ok v) ∧
    (extractJson docInStock "a.b" = Except.ok (Scalar.str "in stock")) ∧
    (extractJson docNonLeaf "a.b" = Except.error ExtractErr.pathNotFound) := by
  refine ⟨?_, ?_, ?_, rfl, rfl⟩
  · intro doc rule fs h
    simp [extractJson, h, scalarOfLeaf]
  · intro doc rule es h
    simp [extractJson, h, scalarOfLeaf]
  · intro doc rule leaf v h hv
    simp [extractJson, h, hv]

/-- Witness for C7 applying the general leaf rule at the two concrete
documents from the spec. -/
theorem json_extraction_leaf_rule_witness :
    extractJson docNonLeaf "a.b" = Except.error ExtractErr.pathNotFound ∧
    extractJson docInStock "a.b" = Except.ok (Scalar.str "in stock") := by
  constructor
  · exact json_extraction_leaf_rule.1 docNonLeaf "a.b" [("c", Json.num 1)]
      rfl
  · exact json_extraction_leaf_rule.2.2.1 docInStock "a.b"
      (Json.str "in stock") (Scalar.str "in stock") rfl rfl

/-- Modelled from the spec: a configured Target record (spec section 3). -/
structure Target where
  name : String
  url : String
  method : String
  rule : String
  expect : String
  interval : Nat
  deriving Repr, DecidableEq

/-- Modelled from the spec: the error kinds of one Target Evaluation
(spec 4.4): fetch, extraction or condition failure. -/
inductive EvalError where
  | fetch
  | extract
  | condition
  deriving Repr, DecidableEq

/-- Modelled from the spec: process one due target inside a pass
(spec 4.6).  A failed evaluation is caught and leaves the accumulated
state and sink-call log untouched; a successful one commits through the
State Tracker, invoking the Alert Sink only on an alert-worthy transition
outside dry-run mode. -/
def passStep (dryRun : Bool) (sink : String → Bool) (now : Nat)
    (acc : StateMap × List String) (t : Target)
    (outcome : Except EvalError (Scalar × Bool)) : StateMap × List String :=
  match outcome with
  | .error _ => acc
  | .ok (v, s) =>
    let out := commitWithAlert (lookupObs acc.1 t.name) v s now dryRun
      (sink t.name)
    (setObs acc.1 t.name out.obs,
     if out.sinkInvoked then acc.2 ++ [t.name] else acc.2)

/-- Modelled from the spec: one pass of the Run Loop over the due targets
(spec 4.6), returning the committed state and the list of Alert Sink
invocations.  The per-target evaluation outcome is supplied by the oracle
`evalF`. -/
def runPass (dryRun : Bool) (sink : String → Bool)
    (evalF : Target → Except EvalError (Scalar × Bool)) (now : Nat)
    (targets : List Target) (st : StateMap) : StateMap × List String :=
  targets.foldl (fun acc t => passStep dryRun sink now acc t (evalF t))
    (st, [])

/-- Modelled from the spec: N consecutive passes of the Run Loop, with a
possibly different evaluation oracle and clock per pass, accumulating all
Alert Sink invocations. -/
def runPasses (dryRun : Bool) (sink : String → Bool)
    (evalFs : Nat → Target → Except EvalError (Scalar × Bool))
    (nows : Nat → Nat) (targets : List Target) :
    Nat → StateMap → StateMap × List String
  | 0, st => (st, [])
  | n + 1, st =>
    let r1 := runPass dryRun sink (evalFs n) (nows n) targets st
    let r2 := runPasses dryRun sink evalFs nows targets n r1.1
    (r2.1, r1.2 ++ r2.2)

/-- Drop the alert timestamp from an observation. -/
def clearAlertStamp (o : Observation) : Observation :=
  { o with last_alerted_at := none }

/-- Drop the alert timestamps from every observation in a state map. -/
def clearAlertStamps (st : StateMap) : StateMap :=
  st.map (fun p => (p.1, clearAlertStamp p.2))

/-- Whether no observation in the state carries an alert timestamp. -/
def allAlertsUnset (st : StateMap) : Bool :=
  st.all (fun p => p.2.last_alerted_at == none)

theorem lookupObs_clearAlertStamps (st : StateMap) (n : String) :
    lookupObs (clearAlertStamps st) n =
      (lookupObs st n).map clearAlertStamp := by
  induction st with
  | nil => rfl
  | cons p rest ih =>
    by_cases h : p.1 = n <;>
      simp [lookupObs, clearAlertStamps, h, ih] <;>
      simp [clearAlertStamps] at ih <;> exact ih

theorem setObs_clearAlertStamps (st : StateMap) (n : String)
    (o : Observation) :
    clearAlertStamps (setObs st n o) =
      setObs (clearAlertStamps st) n (clearAlertStamp o) := by
  induction st with
  | nil => rfl
  | cons p rest ih =>
    by_cases h : p.1 = n <;>
      simp [setObs, clearAlertStamps, h] <;>
      simp [clearAlertStamps] at ih <;> exact ih

theorem commitCheck_clearAlertStamp (prev : Option Observation) (v : Scalar)
    (s : Bool) (now : Nat) (d : Bool) :
    clearAlertStamp (commitCheck prev v s now d) =
      commitCheck (prev.map clearAlertStamp) v s now false := by
  cases prev with
  | none => simp [commitCheck, clearAlertStamp, valueChanged]
  | some o =>
    by_cases h : o.last_value = some v <;>
      simp [commitCheck, clearAlertStamp, valueChanged, h]

theorem wouldAlert_clearAlertStamp (prev : Option Observation) (s : Bool) :
    wouldAlert (prev.map clearAlertStamp) s = wouldAlert prev s := by
  cases prev <;> rfl

theorem passStep_clear (sink : String → Bool) (now : Nat) (t : Target)
    (outcome : Except EvalError (Scalar × Bool))
    (acc1 acc2 : StateMap × List String)
    (h : acc2.1 = clearAlertStamps acc1.1) :
    (passStep true sink now acc2 t outcome).1 =
      clearAlertStamps (passStep false sink now acc1 t outcome).1 := by
  cases outcome with
  | error e => simpa [passStep] using h
  | ok pr =>
    obtain ⟨v, s⟩ := pr
    simp [passStep, commitWithAlert, h, setObs_clearAlertStamps,
      commitCheck_clearAlertStamp, lookupObs_clearAlertStamps,
      wouldAlert_clearAlertStamp]

theorem foldl_passStep_clear (sink : String → Bool)
    (evalF : Target → Except EvalError (Scalar × Bool)) (now : Nat) :
    ∀ (ts : List Target) (acc1 acc2 : StateMap × List String),
      acc2.1 = clearAlertStamps acc1.1 →
      (ts.foldl (fun acc t => passStep true sink now acc t (evalF t))
          acc2).1 =
        clearAlertStamps
          (ts.foldl (fun acc t => passStep false sink now acc t (evalF t))
            acc1).1 := by
  intro ts
  induction ts with
  | nil => intro acc1 acc2 h; simpa using h
  | cons t rest ih =>
    intro acc1 acc2 h
    simp only [List.foldl_cons]
    exact ih _ _ (passStep_clear sink now t (evalF t) acc1 acc2 h)

theorem runPass_clear (sink : String → Bool)
    (evalF : Target → Except EvalError (Scalar × Bool)) (now : Nat)
    (targets : List Target) (st : StateMap) :
    (runPass true sink evalF now targets (clearAlertStamps st)).1 =
      clearAlertStamps (runPass false sink evalF now targets st).1 :=
  foldl_passStep_clear sink evalF now targets (st, [])
    (clearAlertStamps st, []) rfl

theorem runPasses_clear (sink : String → Bool)
    (evalFs : Nat → Target → Except EvalError (Scalar × Bool))
    (nows : Nat → Nat) (targets : List Target) :
    ∀ (n : Nat) (st : StateMap),
      (runPasses true sink evalFs nows targets n (clearAlertStamps st)).1 =
        clearAlertStamps
          (runPasses false sink evalFs nows targets n st).1 := by
  intro n
  induction n with
  | zero => intro st; rfl
  | succ m ih =>
    intro st
    simp only [runPasses]
    rw [runPass_clear, ih]

theorem lookupObs_allAlertsUnset (st : StateMap) (n : String)
    (h : allAlertsUnset st = true) :
    ∀ o, lookupObs st n = some o → o.last_alerted_at = none := by
  induction st with
  | nil => intro o ho; cases ho
  | cons p rest ih =>
    simp only [allAlertsUnset, List.all_cons, Bool.and_eq_true,
      beq_iff_eq] at h
    intro o ho
    by_cases hn : p.1 = n
    · simp only [lookupObs, hn, if_true, Option.some.injEq] at ho
      rw [← ho]; exact h.1
    · simp only [lookupObs, hn, if_false] at ho
      exact ih (by simpa [allAlertsUnset] using h.2) o ho

theorem setObs_allAlertsUnset (st : StateMap) (n : String) (o : Observation)
    (h : allAlertsUnset st = true) (ho : o.last_alerted_at = none) :
    allAlertsUnset (setObs st n o) = true := by
  induction st with
  | nil => simp [setObs, allAlertsUnset, ho]
  | cons p rest ih =>
    simp only [allAlertsUnset, List.all_cons, Bool.and_eq_true,
      beq_iff_eq] at h
    by_cases hn : p.1 = n
    · simp [setObs, hn, allAlertsUnset, ho]
      simpa [allAlertsUnset] using h.2
    · simp [setObs, hn, allAlertsUnset, h.1]
      have := ih (by simpa [allAlertsUnset] using h.2)
      simpa [allAlertsUnset] using this

theorem foldl_passStep_dry_unset (sink : String → Bool)
    (evalF : Target → Except EvalError (Scalar × Bool)) (now : Nat) :
    ∀ (ts : List Target) (acc : StateMap × List String),
      allAlertsUnset acc.1 = true →
      allAlertsUnset
        (ts.foldl (fun acc t => passStep true sink now acc t (evalF t))
          acc).1 = true := by
  intro ts
  induction ts with
  | nil => intro acc h; simpa using h
  | cons t rest ih =>
    intro acc h
    simp only [List.foldl_cons]
    refine ih _ ?_
    cases hev : evalF t with
    | error e => simpa [passStep, hev] using h
    | ok pr =>
      obtain ⟨v, s⟩ := pr
      simp only [passStep, commitWithAlert]
      refine setObs_allAlertsUnset _ _ _ h ?_
      simp only [commitCheck]
      have hnone := lookupObs_allAlertsUnset acc.1 t.name h
      cases hlk : lookupObs acc.1 t.name with
      | none => simp
      | some o => simp [hnone o hlk]

theorem runPasses_dry_unset (sink : String → Bool)
    (evalFs : Nat → Target → Except EvalError (Scalar × Bool))
    (nows : Nat → Nat) (targets : List Target) :
    ∀ (n : Nat) (st : StateMap), allAlertsUnset st = true →
      allAlertsUnset (runPasses true sink evalFs nows targets n st).1
        = true := by
  intro n
  induction n with
  | zero => intro st h; simpa [runPasses] using h
  | succ m ih =>
    intro st h
    simp only [runPasses]
    exact ih _ (foldl_passStep_dry_unset sink (evalFs m) (nows m) targets
      (st, []) h)

theorem foldl_passStep_dry_calls (sink : String → Bool)
    (evalF : Target → Except EvalError (Scalar × Bool)) (now : Nat) :
    ∀ (ts : List Target) (acc : StateMap × List String),
      (ts.foldl (fun acc t => passStep true sink now acc t (evalF t))
        acc).2 = acc.2 := by
  intro ts
  induction ts with
  | nil => intro acc; rfl
  | cons t rest ih =>
    intro acc
    simp only [List.foldl_cons]
    rw [ih]
    cases hev : evalF t with
    | error e => simp [passStep]
    | ok pr =>
      obtain ⟨v, s⟩ := pr
      simp [passStep, commitWithAlert]

theorem runPasses_dry_calls (sink : String → Bool)
    (evalFs : Nat → Target → Except EvalError (Scalar × Bool))
    (nows : Nat → Nat) (targets : List Target) :
    ∀ (n : Nat) (st : StateMap),
      (runPasses true sink evalFs nows targets n st).2 = [] := by
  intro n
  induction n with
  | zero => intro st; rfl
  | succ m ih =>
    intro st
    simp only [runPasses]
    rw [ih]
    simpa [runPass] using
      foldl_passStep_dry_calls sink (evalFs m) (nows m) targets (st, [])

theorem lookupObs_setObs_ne (st : StateMap) (m n : String) (o : Observation)
    (h : ¬ m = n) : lookupObs (setObs st m o) n = lookupObs st n := by
  induction st with
  | nil => simp [setObs, lookupObs, h]
  | cons p rest ih =>
    by_cases hp : p.1 = m
    · simp [setObs, lookupObs, hp, h]
    · by_cases hn : p.1 = n
      · simp [setObs, lookupObs, hp, hn, Ne.symm h]
      · simp [setObs, lookupObs, hp, hn, ih]

theorem foldl_passStep_lookup_ne (dryRun : Bool) (sink : String → Bool)
    (evalF : Target → Except EvalError (Scalar × Bool)) (now : Nat) :
    ∀ (ts : List Target) (acc : StateMap × List String) (n : String),
      (∀ t ∈ ts, ¬ t.name = n) →
      lookupObs
        (ts.foldl (fun acc t => passStep dryRun sink now acc t (evalF t))
          acc).1 n = lookupObs acc.1 n := by
  intro ts
  induction ts with
  | nil => intro acc n _; rfl
  | cons t rest ih =>
    intro acc n h
    simp only [List.foldl_cons]
    rw [ih _ n (fun u hu => h u (List.mem_cons_of_mem t hu))]
    cases hev : evalF t with
    | error e => simp [passStep]
    | ok pr =>
      obtain ⟨v, s⟩ := pr
      simp only [passStep]
      exact lookupObs_setObs_ne _ _ _ _ (h t (List.mem_cons_self t rest))

/-- C4: a fetch, extraction or condition error on one target does not
abort the pass — the pass over the full target list equals the pass with
the failing target skipped, so every other due target is still evaluated
and committed — and the failing target's prior observation, if any, is
left untouched. -/
theorem partial_failure_isolation :
    (∀ (dryRun : Bool) (sink : String → Bool)
        (evalF : Target → Except EvalError (Scalar × Bool)) (now : Nat)
        (pre post : List Target) (b : Target) (st : StateMap)
        (e : EvalError), evalF b = Except.error e →
      runPass dryRun sink evalF now (pre ++ b :: post) st =
        runPass dryRun sink evalF now (pre ++ post) st) ∧
    (∀ (dryRun : Bool) (sink : String → Bool)
        (evalF : Target → Except EvalError (Scalar × Bool)) (now : Nat)
        (pre post : List Target) (b : Target) (st : StateMap)
        (e : EvalError), evalF b = Except.error e →
      (∀ t ∈ pre ++ post, ¬ t.name = b.name) →
      lookupObs
        (runPass dryRun sink evalF now (pre ++ b :: post) st).1 b.name =
        lookupObs st b.name) := by
  have skip : ∀ (dryRun : Bool) (sink : String → Bool)
      (evalF : Target → Except EvalError (Scalar × Bool)) (now : Nat)
      (pre post : List Target) (b : Target) (st : StateMap)
      (e : EvalError), evalF b = Except.error e →
      runPass dryRun sink evalF now (pre ++ b :: post) st =
        runPass dryRun sink evalF now (pre ++ post) st := by
    intro dryRun sink evalF now pre post b st e he
    simp only [runPass, List.foldl_append, List.foldl_cons]
    congr 1
    rw [he]
    simp [passStep]
  refine ⟨skip, ?_⟩
  intro dryRun sink evalF now pre post b st e he hname
  rw [skip dryRun sink evalF now pre post b st e he]
  simp only [runPass, List.foldl_append]
  rw [foldl_passStep_lookup_ne dryRun sink evalF now post _ b.name
    (fun t ht => hname t (List.mem_append_right pre ht))]
  exact foldl_passStep_lookup_ne dryRun sink evalF now pre _ b.name
    (fun t ht => hname t (List.mem_append_left post ht))

/-- Target A of the concrete partial-failure scenario. -/
def tA : Target := ⟨"A", "http://a", "json", "a.b", "", 60⟩

/-- Target B of the concrete partial-failure scenario; its fetch fails. -/
def tB : Target := ⟨"B", "http://b", "dom", ".price", "", 60⟩

/-- Target C of the concrete partial-failure scenario. -/
def tC : Target := ⟨"C", "http://c", "json", "a.b", "", 60⟩

/-- Evaluation oracle for the concrete scenario: A and C succeed, every
other target fails with a fetch error. -/
def evalABC (t : Target) : Except EvalError (Scalar × Bool) :=
  if t.name = "A" then .ok (.str "yes", true)
  else if t.name = "C" then .ok (.str "no", false)
  else .error .fetch

/-- An Alert Sink that always acknowledges. -/
def sinkAll : String → Bool := fun _ => true

/-- Initial state of the concrete scenario: only B has a prior
observation. -/
def initABC : StateMap := [("B", obsSoldOut)]

/-- Witness for C4: with three targets where B's fetch fails, the full
pass equals the pass over A and C alone, B's prior observation is
untouched, and A and C have committed observations. -/
theorem partial_failure_isolation_witness :
    evalABC tB = Except.error EvalError.fetch ∧
    runPass false sinkAll evalABC 7 [tA, tB, tC] initABC =
      runPass false sinkAll evalABC 7 [tA, tC] initABC ∧
    lookupObs (runPass false sinkAll evalABC 7 [tA, tB, tC] initABC).1 "B" =
      some obsSoldOut ∧
    lookupObs (runPass false sinkAll evalABC 7 [tA, tB, tC] initABC).1 "A" =
      some ⟨some (Scalar.str "yes"), true, some 7, none⟩ ∧
    lookupObs (runPass false sinkAll evalABC 7 [tA, tB, tC] initABC).1 "C" =
      some ⟨some (Scalar.str "no"), false, some 7, none⟩ := by
  refine ⟨rfl, ?_, ?_, rfl, rfl⟩
  · exact partial_failure_isolation.1 false sinkAll evalABC 7 [tA] [tC] tB
      initABC EvalError.fetch rfl
  · have h := partial_failure_isolation.2 false sinkAll evalABC 7 [tA] [tC]
      tB initABC EvalError.fetch rfl (by decide)
    exact h.trans rfl

/-- C3: after any number of passes in dry-run mode no target's
`last_alerted_at` is ever set, the Alert Sink is never invoked, and the
committed `in_stock`, `last_value` and `last_changed_at` fields agree with
those of a normal run (a dry run from the alert-stamp-cleared state
produces exactly the alert-stamp-cleared state of the normal run). -/
theorem dry_run_invariant :
    (∀ (sink : String → Bool)
        (evalFs : Nat → Target → Except EvalError (Scalar × Bool))
        (nows : Nat → Nat) (targets : List Target) (n : Nat)
        (st : StateMap), allAlertsUnset st = true →
      allAlertsUnset (runPasses true sink evalFs nows targets n st).1
        = true) ∧
    (∀ (sink : String → Bool)
        (evalFs : Nat → Target → Except EvalError (Scalar × Bool))
        (nows : Nat → Nat) (targets : List Target) (n : Nat)
        (st : StateMap),
      (runPasses true sink evalFs nows targets n st).2 = []) ∧
    (∀ (sink : String → Bool)
        (evalFs : Nat → Target → Except EvalError (Scalar × Bool))
        (nows : Nat → Nat) (targets : List Target) (n : Nat)
        (st : StateMap),
      (runPasses true sink evalFs nows targets n (clearAlertStamps st)).1 =
        clearAlertStamps
          (runPasses false sink evalFs nows targets n st).1) :=
  ⟨fun sink evalFs nows targets => runPasses_dry_unset sink evalFs nows
      targets,
   fun sink evalFs nows targets => runPasses_dry_calls sink evalFs nows
      targets,
   fun sink evalFs nows targets => runPasses_clear sink evalFs nows
      targets⟩

/-- Witness for C3 over three dry-run passes from a state with no alert
stamps. -/
theorem dry_run_invariant_witness :
    allAlertsUnset initABC = true ∧
    allAlertsUnset (runPasses true sinkAll (fun _ => evalABC)
      (fun i => i) [tA, tB, tC] 3 initABC).1 = true := by
  refine ⟨rfl, ?_⟩
  exact dry_run_invariant.1 sinkAll (fun _ => evalABC) (fun i => i)
    [tA, tB, tC] 3 initABC rfl

/-- Modelled from the spec: state-file read failure kinds (the state
module is absent from src/; `StateIOError` in spec section 7, of which the
CLI distinguishes the missing-file case). -/
inductive StateFileErr where
  | fileNotFound
  deriving Repr, DecidableEq

/-- Modelled from the spec: `load_state` from the state module (absent
from src/): read the persisted mapping, failing with the missing-file
error when the state file does not exist; cli.py catches exactly that
error. -/
def load_state (file : Option StateMap) : Except StateFileErr StateMap :=
  match file with
  | none => Except.error StateFileErr.fileNotFound
  | some m => Except.ok m

/-- Modelled from the spec: `safe_load_or_empty` from the state module
(absent from src/): spec section 6, a missing state file yields an empty
mapping, not an error.  Used by the `test` and `run` commands (cli.py
lines 167 and 197). -/
def safe_load_or_empty (file : Option StateMap) : StateMap :=
  match file with
  | none => []
  | some m => m

/-- The state mapping the `list` command proceeds with (cli.py lines
136-139): `load_state`, with the missing-file error caught and replaced by
the empty mapping. -/
def listStateView (file : Option StateMap) : StateMap :=
  match load_state file with
  | .error _ => []
  | .ok m => m

/-- C8: loading persisted state when the state file is missing yields an
empty mapping rather than an error — the `list` command's caught load and
the `safe_load_or_empty` used by `test` and `run` all proceed with the
empty observation map, and agree with the stored mapping when the file
exists. -/
theorem missing_state_file_empty_mapping :
    listStateView none = [] ∧
    safe_load_or_empty none = [] ∧
    (∀ m : StateMap, listStateView (some m) = m) ∧
    (∀ m : StateMap, safe_load_or_empty (some m) = m) :=
  ⟨rfl, rfl, fun _ => rfl, fun _ => rfl⟩

/-- Modelled from the spec: the error kinds `runner.test_target` can
surface: the distinct TargetNotFound for an unconfigured name
(spec section 6) or any other evaluation failure. -/
inductive TestError where
  | targetNotFound (name : String)
  | other (msg : String)
  deriving Repr, DecidableEq

/-- Modelled from the spec: `runner.test_target` (the runner module is
absent from src/): evaluate a single named target against current state;
an unconfigured name is the distinct TargetNotFound error, any evaluation
failure is surfaced directly, and success yields the CheckResult. -/
def test_target (conf : List Target) (st : StateMap) (name : String)
    (evalF : Target → Except String (Scalar × Bool)) :
    Except TestError CheckResult :=
  match conf.find? (fun t => t.name == name) with
  | none => .error (.targetNotFound name)
  | some t =>
    match evalF t with
    | .error m => .error (.other m)
    | .ok (v, s) => .ok ⟨v, s, wouldAlert (lookupObs st name) s⟩

/-- Exit status of the `test` command (cli.py lines 158-181): a missing
config file exits 1, TargetNotFound exits 1, any other error exits 2, and
success prints the CheckResult and exits 0. -/
def test_cmd_exit (configFile : Option (List Target))
    (stateFile : Option StateMap) (name : String)
    (evalF : Target → Except String (Scalar × Bool)) : Nat :=
  match configFile with
  | none => 1
  | some conf =>
    match test_target conf (safe_load_or_empty stateFile) name evalF with
    | .error (.targetNotFound _) => 1
    | .error (.other _) => 2
    | .ok _ => 0

/-- C9: an unconfigured target name fails with the distinct TargetNotFound
error kind; in the `test` command TargetNotFound and a missing config file
exit with status 1, any other error exits with status 2, and success exits
with status 0, so every fatal error is distinguishable from success. -/
theorem target_not_found_and_exit_codes :
    (∀ (conf : List Target) (st : StateMap) (name : String)
        (evalF : Target → Except String (Scalar × Bool)),
      (∀ t ∈ conf, ¬ t.name = name) →
        test_target conf st name evalF =
          Except.error (TestError.targetNotFound name)) ∧
    (∀ (stateFile : Option StateMap) (name : String)
        (evalF : Target → Except String (Scalar × Bool)),
      test_cmd_exit none stateFile name evalF = 1) ∧
    (∀ (conf : List Target) (stateFile : Option StateMap) (name n : String)
        (evalF : Target → Except String (Scalar × Bool)),
      test_target conf (safe_load_or_empty stateFile) name evalF =
          Except.error (TestError.targetNotFound n) →
        test_cmd_exit (some conf) stateFile name evalF = 1) ∧
    (∀ (conf : List Target) (stateFile : Option StateMap) (name m : String)
        (evalF : Target → Except String (Scalar × Bool)),
      test_target conf (safe_load_or_empty stateFile) name evalF =
          Except.error (TestError.other m) →
        test_cmd_exit (some conf) stateFile name evalF = 2) ∧
    (∀ (conf : List Target) (stateFile : Option StateMap) (name : String)
        (evalF : Target → Except String (Scalar × Bool)) (r : CheckResult),
      test_target conf (safe_load_or_empty stateFile) name evalF =
          Except.ok r →
        test_cmd_exit (some conf) stateFile name evalF = 0) := by
  refine ⟨?_, fun _ _ _ => rfl, ?_, ?_, ?_⟩
  · intro conf st name evalF h
    have hfind : conf.find? (fun t => t.name == name) = none := by
      rw [List.find?_eq_none]
      intro t ht
      simpa using h t ht
    simp [test_target, hfind]
  · intro conf stateFile name n evalF h
    simp [test_cmd_exit, h]
  · intro conf stateFile name m evalF h
    simp [test_cmd_exit, h]
  · intro conf stateFile name evalF r h
    simp [test_cmd_exit, h]

/-- Witness for C9: requesting the unconfigured name Z yields the
TargetNotFound error and exit status 1. -/
theorem target_not_found_and_exit_codes_witness :
    test_target [tA] [] "Z" (fun _ => Except.error "boom") =
      Except.error (TestError.targetNotFound "Z") ∧
    test_cmd_exit (some [tA]) none "Z" (fun _ => Except.error "boom")
      = 1 := by
  have h1 := target_not_found_and_exit_codes.1 [tA] [] "Z"
    (fun _ => Except.error "boom") (by decide)
  refine ⟨h1, ?_⟩
  exact target_not_found_and_exit_codes.2.2.1 [tA] none "Z" "Z"
    (fun _ => Except.error "boom") h1

/-- Modelled from the spec: `remove_target` from the config module (absent
from src/): delete the target record with the given name from the
configuration, reporting whether anything was removed. -/
def remove_target (conf : List Target) (name : String) :
    List Target × Bool :=
  (conf.filter (fun t => !(t.name == name)),
   conf.any (fun t => t.name == name))

/-- Outcome of the `remove` command: its exit status and the configuration
handed to `save_config`, or none when `save_config` was never called. -/
structure RemoveOutcome where
  exitCode : Nat
  saved : Option (List Target)
  deriving Repr, DecidableEq

/-- The `remove` command (cli.py lines 100-121): a missing config file
exits 1; when `remove_target` reports nothing removed the command warns
and exits 1 without calling `save_config`; otherwise the updated
configuration is saved and the command succeeds with status 0. -/
def remove_cmd (configFile : Option (List Target)) (name : String) :
    RemoveOutcome :=
  match configFile with
  | none => ⟨1, none⟩
  | some data =>
    let r := remove_target data name
    if r.2 then ⟨0, some r.1⟩ else ⟨1, none⟩

/-- C10: removing a target name not present in the configuration exits
with status 1 and never calls `save_config`, and the in-memory
configuration is left unchanged. -/
theorem remove_missing_target_no_save (conf : List Target) (name : String)
    (h : ∀ t ∈ conf, ¬ t.name = name) :
    remove_cmd (some conf) name = ⟨1, none⟩ ∧
    (remove_target conf name).1 = conf := by
  have hany : conf.any (fun t => t.name == name) = false := by
    rw [List.any_eq_false]
    intro t ht
    simpa using h t ht
  have hfilter : conf.filter (fun t => !(t.name == name)) = conf := by
    rw [List.filter_eq_self]
    intro t ht
    simpa using h t ht
  constructor
  · simp [remove_cmd, remove_target, hany]
  · simpa [remove_target] using hfilter

/-- Witness for C10: removing the unconfigured name Z from a one-target
configuration exits 1 and saves nothing. -/
theorem remove_missing_target_no_save_witness :
    remove_cmd (some [tA]) "Z" = ⟨1, none⟩ ∧
    (remove_target [tA] "Z").1 = [tA] :=
  remove_missing_target_no_save [tA] "Z" (by decide)
